import Mathlib

/-!
Shallow embedding of the coze chat front-end core (src/gui.rs): the fuzzy
history navigator and the prompt-submission / message-draining logic of the
application, together with a model of the Generator facade described by the
specification (the generator module itself is not part of the sources here).

Machine integers: the Rust code uses `usize` for the navigator cursor, with
`usize::MAX` as an out-of-range sentinel and saturating arithmetic.  We model
`usize` values as `Nat` with the explicit constant `USIZE_MAX`; `Nat`
subtraction is already saturating, matching `saturating_sub`.  The
`saturating_add` in `HistoryNavigator::down` can only saturate when the
cursor reaches `usize::MAX`, which cannot happen there because the cursor
stays below the history length, itself at most `USIZE_MAX` in Rust.
-/

/-- Sentinel value of the navigator cursor, `usize::MAX` on a 64-bit target. -/
def USIZE_MAX : Nat := 2 ^ 64 - 1

/-- Rust `char::to_ascii_lowercase`: maps an ASCII uppercase letter to its
lowercase form and leaves every other character unchanged. -/
def to_ascii_lowercase (c : Char) : Char :=
  if 65 ≤ c.toNat ∧ c.toNat ≤ 90 then Char.ofNat (c.toNat + 32) else c

/-- Rust `char::eq_ignore_ascii_case`: equality after ASCII lowercasing. -/
def eq_ignore_ascii_case (a b : Char) : Bool :=
  decide (to_ascii_lowercase a = to_ascii_lowercase b)

/-- Pointwise ASCII-case-insensitive equality of character lists; the
character-level reading of Rust `str::eq_ignore_ascii_case` (equal length and
corresponding characters equal up to ASCII case). -/
def eq_ignore_case_list : List Char → List Char → Bool
  | [], [] => true
  | x :: xs, y :: ys => eq_ignore_ascii_case x y && eq_ignore_case_list xs ys
  | _, _ => false

/-- Rust `str::eq_ignore_ascii_case` on whole strings. -/
def str_eq_ignore_ascii_case (a b : String) : Bool :=
  eq_ignore_case_list a.data b.data

/-- Models Rust `str::to_lowercase` as used by `HistoryNavigator::reset`.
Rust performs the full Unicode lowercase mapping; this model performs the
ASCII mapping, which agrees with Rust on every string whose uppercase letters
are ASCII.  All theorems below either hold for an arbitrary mapping applied
here or use inputs on which the two mappings agree. -/
def str_to_lowercase (s : String) : String :=
  ⟨s.data.map to_ascii_lowercase⟩

/-- Rust `str::trim`: removes leading and trailing Unicode whitespace.  The
predicate lists exactly the code points with the Unicode property
White_Space, which is what Rust `char::is_whitespace` tests. -/
def rust_is_whitespace (c : Char) : Bool :=
  decide ((9 ≤ c.toNat ∧ c.toNat ≤ 13) ∨ c.toNat = 32 ∨ c.toNat = 0x85 ∨
    c.toNat = 0xA0 ∨ c.toNat = 0x1680 ∨ (0x2000 ≤ c.toNat ∧ c.toNat ≤ 0x200A) ∨
    c.toNat = 0x2028 ∨ c.toNat = 0x2029 ∨ c.toNat = 0x202F ∨
    c.toNat = 0x205F ∨ c.toNat = 0x3000)

/-- Rust `str::trim`. -/
def rust_trim (s : String) : String :=
  ⟨((s.data.dropWhile rust_is_whitespace).reverse.dropWhile
      rust_is_whitespace).reverse⟩

/-- A conversation entry: `struct Prompt { prompt: String, reply: String }`. -/
structure Prompt where
  prompt : String
  reply : String
deriving DecidableEq, Repr

/-- Navigator state: `struct HistoryNavigator { pattern: String, cursor: usize }`. -/
structure HistoryNavigator where
  pattern : String
  cursor : Nat
deriving DecidableEq, Repr

/-- `HistoryNavigator::new`: empty pattern, cursor at the sentinel. -/
def HistoryNavigator.new : HistoryNavigator :=
  { pattern := "", cursor := USIZE_MAX }

/-- `HistoryNavigator::reset`: stores the lowercased pattern and moves the
cursor back to the sentinel. -/
def HistoryNavigator.reset (_nav : HistoryNavigator) (pattern : String) :
    HistoryNavigator :=
  { pattern := str_to_lowercase pattern, cursor := USIZE_MAX }

/-- The peekable-iterator loop inside `HistoryNavigator::is_match`: walks the
text once, consuming the next filter character whenever the current text
character matches it ASCII-case-insensitively, and returns the unconsumed
rest of the filter. -/
def consume_filter : List Char → List Char → List Char
  | pat, [] => pat
  | [], _ :: _ => []
  | p :: ps, c :: cs =>
    if eq_ignore_ascii_case p c then consume_filter ps cs
    else consume_filter (p :: ps) cs

/-- The subsequence test of `is_match`: the loop succeeded when the whole
filter was consumed (`pit.peek().is_none()`). -/
def subseq_match (pat text : List Char) : Bool :=
  (consume_filter pat text).isEmpty

/-- `HistoryNavigator::is_match`: rejects a candidate equal (ASCII-case-
insensitively) to the entry at the current cursor, otherwise runs the greedy
subsequence scan of the stored pattern over the candidate text. -/
def HistoryNavigator.is_match (nav : HistoryNavigator) (history : List Prompt)
    (text : String) : Bool :=
  let match_current :=
    match history.get? nav.cursor with
    | some p => str_eq_ignore_ascii_case text p.prompt
    | none => false
  if match_current then false
  else subseq_match nav.pattern.data text.data

/-- The loop of `HistoryNavigator::up`, parameterised by the running cursor
value: each iteration decrements the cursor (saturating at 0), tests the
entry there, and stops with `none` once the cursor has reached 0. -/
def up_scan (nav : HistoryNavigator) (history : List Prompt) :
    Nat → Option (Nat × Prompt)
  | 0 =>
    match history.get? 0 with
    | some p => if nav.is_match history p.prompt then some (0, p) else none
    | none => none
  | n + 1 =>
    match history.get? n with
    | some p =>
      if nav.is_match history p.prompt then some (n, p)
      else if n = 0 then none else up_scan nav history n
    | none => if n = 0 then none else up_scan nav history n

/-- `HistoryNavigator::up`: returns the updated navigator and the found
prompt, scanning backward from `min cursor history.len()`. -/
def HistoryNavigator.up (nav : HistoryNavigator) (history : List Prompt) :
    HistoryNavigator × Option String :=
  if history.isEmpty then (nav, none)
  else
    match up_scan nav history (Nat.min nav.cursor history.length) with
    | some (c, p) => ({ nav with cursor := c }, some p.prompt)
    | none => (nav, none)

/-- The loop of `HistoryNavigator::down`, re-expressed over the suffix of the
history that starts one past the current cursor value: visiting the elements
of `history.drop (start+1)` with their indices is the same as calling
`history.get(c)` for `c = start+1, start+2, …` until the lookup fails. -/
def down_scan_aux (nav : HistoryNavigator) (history : List Prompt) :
    List Prompt → Nat → Option (Nat × Prompt)
  | [], _ => none
  | p :: rest, c =>
    if nav.is_match history p.prompt then some (c, p)
    else down_scan_aux nav history rest (c + 1)

/-- The loop of `HistoryNavigator::down` starting from cursor value `start`. -/
def down_scan (nav : HistoryNavigator) (history : List Prompt) (start : Nat) :
    Option (Nat × Prompt) :=
  down_scan_aux nav history (history.drop (start + 1)) (start + 1)

/-- `HistoryNavigator::down`: scans forward from `min cursor (len - 1)`. -/
def HistoryNavigator.down (nav : HistoryNavigator) (history : List Prompt) :
    HistoryNavigator × Option String :=
  if history.isEmpty then (nav, none)
  else
    match down_scan nav history (Nat.min nav.cursor (history.length - 1)) with
    | some (c, p) => ({ nav with cursor := c }, some p.prompt)
    | none => (nav, none)

/-- The match-and-skip-current rule at one index of the history: the entry
exists and `is_match` accepts its prompt. -/
def entry_matches (nav : HistoryNavigator) (history : List Prompt) (i : Nat) :
    Bool :=
  match history.get? i with
  | some p => nav.is_match history p.prompt
  | none => false

/-!
Generator facade and application state.  The repository sources here contain
only `gui.rs` and `main.rs`; the `generator` module they import is absent, so
the facade is modelled from the specification (sections 2–5): a delivery
queue of messages drained one at a time and non-blockingly by
`next_message`, prompt ids minted strictly increasing by `send_prompt`
starting above the default id, and a best-effort `stop` signal that does not
clear already-queued fragments.
-/

/-- Modelled from the spec: a PromptId is an unsigned counter value; the
default id (0, `PromptId::default()`) is below every minted id. -/
abbrev PromptId : Type := Nat

/-- Modelled from the spec: `Message` is a sum of a text fragment tagged
with its prompt id and an error notification. -/
inductive Message where
  | Token (id : PromptId) (text : String)
  | Error (msg : String)
deriving DecidableEq, Repr

/-- Modelled from the spec: the consumer-visible Generator state — the
first-in-first-out delivery queue, the next id to mint, and whether a stop
has been requested.  Fragment production happens asynchronously in the
worker and is not modelled; fragments appear in `queue` externally. -/
structure Generator where
  queue : List Message
  next_id : Nat
  stop_requested : Bool
deriving DecidableEq, Repr

/-- Modelled from the spec: `next_message` non-blockingly removes and
returns at most one pending message, or nothing when the queue is empty. -/
def Generator.next_message (g : Generator) : Generator × Option Message :=
  match g.queue with
  | [] => (g, none)
  | m :: rest => ({ g with queue := rest }, some m)

/-- Modelled from the spec: `send_prompt` mints and immediately returns a
fresh, strictly increasing PromptId; generation starts asynchronously. -/
def Generator.send_prompt (g : Generator) (_text : String) :
    PromptId × Generator :=
  (g.next_id, { g with next_id := g.next_id + 1 })

/-- Modelled from the spec: `stop` requests cessation of the in-flight
generation; it does not clear already-queued undelivered fragments. -/
def Generator.stop (g : Generator) : Generator :=
  { g with stop_requested := true }

/-- The loop `while self.generator.next_message().is_some() {}` of
`App::send_prompt`: each iteration pops the queue head, so the loop runs the
queue down to empty. -/
def drain_loop : List Message → List Message
  | [] => []
  | _ :: rest => drain_loop rest

/-- The generator after the flush loop of `App::send_prompt`. -/
def drain_messages (g : Generator) : Generator :=
  { g with queue := drain_loop g.queue }

/-- The fields of `App` that the modelled behaviour touches.  The purely
presentational fields (`prompt_field_id`, `ctx`, `frame_counter`,
`show_config`, `show_help`) are omitted: they only drive egui rendering. -/
structure App where
  prompt : String
  last_prompt_id : PromptId
  history : List Prompt
  generator : Generator
  error : Option String
  matcher : HistoryNavigator
deriving DecidableEq, Repr

/-- `App::send_prompt`: trims the prompt; when non-empty, flushes the
delivery queue, submits the prompt, records the returned id and pushes a new
conversation entry with empty reply; in every case clears the input field
(`reset_prompt("")`, whose egui TextEditState store is presentation-only)
and resets the matcher with the now-empty prompt text. -/
def App.send_prompt (app : App) : App :=
  let prompt := rust_trim app.prompt
  let app1 :=
    if prompt = "" then app
    else
      let g0 := drain_messages app.generator
      let (id, g1) := g0.send_prompt prompt
      { app with
          generator := g1
          last_prompt_id := id
          history := app.history ++ [{ prompt := prompt, reply := "" }] }
  let app2 := { app1 with prompt := "" }
  { app2 with matcher := app2.matcher.reset app2.prompt }

/-- `if let Some(prompt) = history.last_mut() { prompt.reply.push_str(&s) }`:
appends `s` to the reply of the last entry, if any. -/
def push_to_last_reply (h : List Prompt) (s : String) : List Prompt :=
  match h.getLast? with
  | some p => h.dropLast ++ [{ p with reply := p.reply ++ s }]
  | none => h

/-- The message-draining step at the top of `App::update`: drains at most
one message; a Token is appended to the last reply only when its id equals
`last_prompt_id`; an Error is stored; nothing happens on an empty queue.
The local `scroll_to_bottom` flag only affects rendering and is omitted. -/
def App.pump_message (app : App) : App :=
  match app.generator.next_message with
  | (g, some (Message.Token prompt_id s)) =>
    let app1 := { app with generator := g }
    if app1.last_prompt_id = prompt_id then
      { app1 with history := push_to_last_reply app1.history s }
    else app1
  | (g, some (Message.Error msg)) =>
    { app with generator := g, error := some msg }
  | (g, none) => { app with generator := g }

/-- The Escape branch of `App::process_input`: stops the generator, clears
the input field and resets the matcher with the now-empty prompt text;
`last_prompt_id` is not touched. -/
def App.on_escape (app : App) : App :=
  let app1 := { app with generator := app.generator.stop }
  let app2 := { app1 with prompt := "" }
  { app2 with matcher := app2.matcher.reset app2.prompt }

/-- Written from the words of the specification, for comparison with the
greedy scan of the code: the filter is a subsequence of the text when every
filter character is matched in order by some text character, ASCII-case-
insensitively; this version searches all ways of matching. -/
def spec_subseq : List Char → List Char → Bool
  | [], _ => true
  | _ :: _, [] => false
  | p :: ps, c :: cs =>
    (eq_ignore_ascii_case p c && spec_subseq ps cs) || spec_subseq (p :: ps) cs

/-!
Theorems.  General helper lemmas come first, then one theorem per claim
(with witnesses and counterexamples where applicable).
-/

theorem consume_filter_nil_left (text : List Char) :
    consume_filter [] text = [] := by
  cases text <;> simp [consume_filter]

theorem eq_ignore_ascii_case_iff (a b : Char) :
    eq_ignore_ascii_case a b = true ↔
      to_ascii_lowercase a = to_ascii_lowercase b := by
  simp [eq_ignore_ascii_case]

theorem eq_ignore_ascii_case_refl (a : Char) :
    eq_ignore_ascii_case a a = true := by
  simp [eq_ignore_ascii_case]

theorem eq_ignore_case_list_refl (l : List Char) :
    eq_ignore_case_list l l = true := by
  induction l with
  | nil => rfl
  | cons x xs ih => simp [eq_ignore_case_list, eq_ignore_ascii_case_refl, ih]

theorem str_eq_ignore_ascii_case_refl (s : String) :
    str_eq_ignore_ascii_case s s = true :=
  eq_ignore_case_list_refl s.data

theorem consume_filter_drop_head :
    ∀ (cs : List Char) (p : Char) (ps : List Char),
      consume_filter (p :: ps) cs = [] → consume_filter ps cs = [] := by
  intro cs
  induction cs with
  | nil => intro p ps h; simp [consume_filter] at h
  | cons c cs ih =>
    intro p ps h
    by_cases hpc : eq_ignore_ascii_case p c = true
    · rw [consume_filter, if_pos hpc] at h
      cases ps with
      | nil => exact consume_filter_nil_left _
      | cons q qs =>
        by_cases hqc : eq_ignore_ascii_case q c = true
        · rw [consume_filter, if_pos hqc]
          exact ih q qs h
        · rw [consume_filter, if_neg hqc]
          exact h
    · rw [consume_filter, if_neg hpc] at h
      have h2 := ih p ps h
      cases ps with
      | nil => exact consume_filter_nil_left _
      | cons q qs =>
        by_cases hqc : eq_ignore_ascii_case q c = true
        · rw [consume_filter, if_pos hqc]
          exact ih q qs h2
        · rw [consume_filter, if_neg hqc]
          exact h2

theorem consume_filter_sound :
    ∀ (text pat : List Char),
      consume_filter pat text = [] → spec_subseq pat text = true := by
  intro text
  induction text with
  | nil =>
    intro pat h
    rw [consume_filter] at h
    subst h
    rfl
  | cons c cs ih =>
    intro pat h
    cases pat with
    | nil => rfl
    | cons p ps =>
      rw [spec_subseq]
      by_cases hpc : eq_ignore_ascii_case p c = true
      · rw [consume_filter, if_pos hpc] at h
        simp [hpc, ih ps h]
      · rw [consume_filter, if_neg hpc] at h
        simp [ih (p :: ps) h]

theorem consume_filter_complete :
    ∀ (text pat : List Char),
      spec_subseq pat text = true → consume_filter pat text = [] := by
  intro text
  induction text with
  | nil =>
    intro pat h
    cases pat with
    | nil => rfl
    | cons p ps => simp [spec_subseq] at h
  | cons c cs ih =>
    intro pat h
    cases pat with
    | nil => exact consume_filter_nil_left _
    | cons p ps =>
      rw [spec_subseq] at h
      by_cases hpc : eq_ignore_ascii_case p c = true
      · rw [consume_filter, if_pos hpc]
        simp [hpc] at h
        cases h with
        | inl h1 => exact ih ps h1
        | inr h2 =>
          exact consume_filter_drop_head cs p ps (ih (p :: ps) h2)
      · rw [consume_filter, if_neg hpc]
        simp only [hpc, Bool.false_and, Bool.false_or] at h
        exact ih (p :: ps) h

theorem eq_ignore_case_list_isEmpty {l l2 : List Char}
    (h : eq_ignore_case_list l l2 = true) : l.isEmpty = l2.isEmpty := by
  cases l <;> cases l2 <;> simp_all [eq_ignore_case_list]

theorem consume_filter_respects :
    ∀ (text text2 pat pat2 : List Char),
      eq_ignore_case_list pat pat2 = true →
      eq_ignore_case_list text text2 = true →
      eq_ignore_case_list (consume_filter pat text)
        (consume_filter pat2 text2) = true := by
  intro text
  induction text with
  | nil =>
    intro text2 pat pat2 hp ht
    cases text2 with
    | nil => simpa [consume_filter] using hp
    | cons y ys => simp [eq_ignore_case_list] at ht
  | cons c cs ih =>
    intro text2 pat pat2 hp ht
    cases text2 with
    | nil => simp [eq_ignore_case_list] at ht
    | cons c2 cs2 =>
      rw [eq_ignore_case_list, Bool.and_eq_true] at ht
      obtain ⟨hc, hcs⟩ := ht
      cases pat with
      | nil =>
        cases pat2 with
        | nil => simp [consume_filter_nil_left, eq_ignore_case_list]
        | cons q qs => simp [eq_ignore_case_list] at hp
      | cons p ps =>
        cases pat2 with
        | nil => simp [eq_ignore_case_list] at hp
        | cons p2 ps2 =>
          rw [eq_ignore_case_list, Bool.and_eq_true] at hp
          obtain ⟨hph, hps⟩ := hp
          have hbranch : eq_ignore_ascii_case p c = eq_ignore_ascii_case p2 c2 := by
            rw [eq_ignore_ascii_case_iff] at hph hc
            simp [eq_ignore_ascii_case, hph, hc]
          by_cases hpc : eq_ignore_ascii_case p c = true
          · rw [consume_filter, if_pos hpc, consume_filter,
              if_pos (hbranch ▸ hpc)]
            exact ih cs2 ps ps2 hps hcs
          · rw [consume_filter, if_neg hpc, consume_filter,
              if_neg (hbranch ▸ hpc)]
            exact ih cs2 (p :: ps) (p2 :: ps2)
              (by rw [eq_ignore_case_list, Bool.and_eq_true]; exact ⟨hph, hps⟩) hcs

/-- Claim C1: for the history ["hello world", "help me", "hi"] and filter
"he", calling up three times on a freshly reset("he") HistoryNavigator
returns some "help me", then some "hello world", then none. -/
theorem c1_up_sequence_he :
    ((HistoryNavigator.new.reset "he").up
        [⟨"hello world", ""⟩, ⟨"help me", ""⟩, ⟨"hi", ""⟩]).2 = some "help me" ∧
    (((HistoryNavigator.new.reset "he").up
        [⟨"hello world", ""⟩, ⟨"help me", ""⟩, ⟨"hi", ""⟩]).1.up
        [⟨"hello world", ""⟩, ⟨"help me", ""⟩, ⟨"hi", ""⟩]).2 =
      some "hello world" ∧
    ((((HistoryNavigator.new.reset "he").up
        [⟨"hello world", ""⟩, ⟨"help me", ""⟩, ⟨"hi", ""⟩]).1.up
        [⟨"hello world", ""⟩, ⟨"help me", ""⟩, ⟨"hi", ""⟩]).1.up
        [⟨"hello world", ""⟩, ⟨"help me", ""⟩, ⟨"hi", ""⟩]).2 = none := by
  refine ⟨by decide, by decide, by decide⟩

/-- Claim C2, counterexample: for the history ["foo", "foo", "bar"] and
filter "", the first two calls to up return some "bar" and some "foo" as the
claim says, but the third returns none, not some "foo": the candidate at
index 0 equals, ASCII-case-insensitively, the entry at the cursor (index 1),
so the skip-current rule rejects it and the scan ends at index 0. -/
theorem c2_counterexample_identical_run :
    ((HistoryNavigator.new.reset "").up
        [⟨"foo", ""⟩, ⟨"foo", ""⟩, ⟨"bar", ""⟩]).2 = some "bar" ∧
    (((HistoryNavigator.new.reset "").up
        [⟨"foo", ""⟩, ⟨"foo", ""⟩, ⟨"bar", ""⟩]).1.up
        [⟨"foo", ""⟩, ⟨"foo", ""⟩, ⟨"bar", ""⟩]).2 = some "foo" ∧
    ((((HistoryNavigator.new.reset "").up
        [⟨"foo", ""⟩, ⟨"foo", ""⟩, ⟨"bar", ""⟩]).1.up
        [⟨"foo", ""⟩, ⟨"foo", ""⟩, ⟨"bar", ""⟩]).1.up
        [⟨"foo", ""⟩, ⟨"foo", ""⟩, ⟨"bar", ""⟩]).2 = none ∧
    ¬ ((((HistoryNavigator.new.reset "").up
        [⟨"foo", ""⟩, ⟨"foo", ""⟩, ⟨"bar", ""⟩]).1.up
        [⟨"foo", ""⟩, ⟨"foo", ""⟩, ⟨"bar", ""⟩]).1.up
        [⟨"foo", ""⟩, ⟨"foo", ""⟩, ⟨"bar", ""⟩]).2 = some "foo" := by
  refine ⟨by decide, by decide, by decide, by decide⟩

/-- Claim C2, amended: for the history ["foo", "foo", "bar"] and filter "",
calling up three times on a freshly reset("") HistoryNavigator returns
some "bar" (cursor 2), then some "foo" (the entry at index 1, cursor 1),
then none: the entry at index 0 is skipped because its text equals,
ASCII-case-insensitively, the entry at the cursor, and the cursor stays
at 1. -/
theorem c2_amended_up_sequence :
    (HistoryNavigator.new.reset "").up
        [⟨"foo", ""⟩, ⟨"foo", ""⟩, ⟨"bar", ""⟩] =
      ({ pattern := "", cursor := 2 }, some "bar") ∧
    (((HistoryNavigator.new.reset "").up
        [⟨"foo", ""⟩, ⟨"foo", ""⟩, ⟨"bar", ""⟩]).1.up
        [⟨"foo", ""⟩, ⟨"foo", ""⟩, ⟨"bar", ""⟩]) =
      ({ pattern := "", cursor := 1 }, some "foo") ∧
    ((((HistoryNavigator.new.reset "").up
        [⟨"foo", ""⟩, ⟨"foo", ""⟩, ⟨"bar", ""⟩]).1.up
        [⟨"foo", ""⟩, ⟨"foo", ""⟩, ⟨"bar", ""⟩]).1.up
        [⟨"foo", ""⟩, ⟨"foo", ""⟩, ⟨"bar", ""⟩]) =
      ({ pattern := "", cursor := 1 }, none) := by
  refine ⟨by decide, by decide, by decide⟩

/-- Claim C7: reset is independent of the previous navigator state — for
every state and pattern it produces exactly the state a fresh navigator has
after the same reset: the lowercased pattern and the sentinel cursor. -/
theorem c7_reset_state_independent (nav : HistoryNavigator) (p : String) :
    nav.reset p = HistoryNavigator.new.reset p ∧
    (nav.reset p).pattern = str_to_lowercase p ∧
    (nav.reset p).cursor = USIZE_MAX :=
  ⟨rfl, rfl, rfl⟩

/-- Claim C3, counterexample: the match is not invariant under changing the
case of arbitrary letters — only ASCII ones.  With the already-lowercase
filter "ä" (which Rust to_lowercase leaves unchanged, as does this model),
the text "ä" matches but the text "Ä", the same letter with its case
changed, does not: the comparison in the code is eq_ignore_ascii_case, and
these characters are not ASCII. -/
theorem c3_counterexample_nonascii_case :
    (HistoryNavigator.new.reset "ä").is_match [] "ä" = true ∧
    (HistoryNavigator.new.reset "ä").is_match [] "Ä" = false := by
  refine ⟨by decide, by decide⟩

/-- Claim C3, amended: a text matches iff the filter characters appear in
order, not necessarily contiguously, among the text characters under
ASCII-case-insensitive comparison (the greedy scan of the code is equivalent
to the existential subsequence search); the empty filter matches every text;
the match is unchanged when the case of ASCII letters in the text or the
pattern is changed (characterwise ASCII-case-equivalent inputs give the same
result); and with no entry at the cursor `is_match` is exactly this
subsequence test of the stored pattern. -/
theorem c3_amended_subsequence_ascii (pat text : List Char) :
    (subseq_match pat text = true ↔ spec_subseq pat text = true) ∧
    subseq_match [] text = true ∧
    (∀ (pat2 text2 : List Char),
       eq_ignore_case_list pat pat2 = true →
       eq_ignore_case_list text text2 = true →
       subseq_match pat text = subseq_match pat2 text2) ∧
    (∀ (nav : HistoryNavigator) (history : List Prompt) (s : String),
       history.get? nav.cursor = none →
       nav.is_match history s = subseq_match nav.pattern.data s.data) := by
  refine ⟨⟨fun h => ?_, fun h => ?_⟩, ?_, fun pat2 text2 hp ht => ?_, ?_⟩
  · exact consume_filter_sound text pat (by
      simpa [subseq_match, List.isEmpty_iff] using h)
  · simp [subseq_match, List.isEmpty_iff, consume_filter_complete text pat h]
  · simp [subseq_match, consume_filter_nil_left]
  · have := consume_filter_respects text text2 pat pat2 hp ht
    simp only [subseq_match]
    exact eq_ignore_case_list_isEmpty this
  · intro nav history s hcur
    have hcur2 : history[nav.cursor]? = none := by
      simpa [List.get?_eq_getElem?] using hcur
    simp [HistoryNavigator.is_match, hcur2]

/-- Witness for the amended C3 at concrete inputs: the case-invariance part
at the ASCII pair ("he", "Help") against ("HE", "hELP"), and the is_match
link at a navigator with an out-of-range cursor. -/
theorem c3_amended_subsequence_ascii_witness :
    subseq_match "he".data "Help".data = subseq_match "HE".data "hELP".data ∧
    (HistoryNavigator.new.reset "he").is_match [] "hey" =
      subseq_match (HistoryNavigator.new.reset "he").pattern.data "hey".data :=
  ⟨(c3_amended_subsequence_ascii "he".data "Help".data).2.2.1 "HE".data
      "hELP".data (by decide) (by decide),
   (c3_amended_subsequence_ascii "he".data "Help".data).2.2.2
      (HistoryNavigator.new.reset "he") [] "hey" (by decide)⟩

theorem get?_some_lt {α : Type} {l : List α} {n : Nat} {a : α}
    (h : l.get? n = some a) : n < l.length := by
  obtain ⟨hlt, -⟩ := List.get?_eq_some.mp h
  exact hlt

theorem get?_drop_eq {α : Type} :
    ∀ (i : Nat) (l : List α) (j : Nat), (l.drop i).get? j = l.get? (i + j) := by
  intro i
  induction i with
  | zero => intro l j; simp
  | succ i ih =>
    intro l j
    cases l with
    | nil => simp
    | cons a t =>
      rw [List.drop_succ_cons, ih t j]
      have hj : i + 1 + j = (i + j) + 1 := by omega
      rw [hj]
      rfl

theorem is_match_self {nav : HistoryNavigator} {history : List Prompt}
    {p : Prompt} (hp : history.get? nav.cursor = some p) :
    nav.is_match history p.prompt = false := by
  have hp2 : history[nav.cursor]? = some p := by
    simpa [List.get?_eq_getElem?] using hp
  simp [HistoryNavigator.is_match, hp2, str_eq_ignore_ascii_case_refl]

theorem entry_matches_false_of_get? {nav : HistoryNavigator}
    {history : List Prompt} {i : Nat} {p : Prompt}
    (hg : history.get? i = some p)
    (he : entry_matches nav history i = false) :
    nav.is_match history p.prompt = false := by
  rw [entry_matches, hg] at he
  exact he

theorem up_scan_eq_none (nav : HistoryNavigator) (history : List Prompt) :
    ∀ (k : Nat), (∀ i, i < k → entry_matches nav history i = false) →
      entry_matches nav history 0 = false → up_scan nav history k = none := by
  intro k
  induction k with
  | zero =>
    intro _ h0
    cases hg : history.get? 0 with
    | none => simp only [up_scan, hg]
    | some p =>
      have hm := entry_matches_false_of_get? hg h0
      simp only [up_scan, hg]
      simp [hm]
  | succ n ih =>
    intro hall h0
    have hn : entry_matches nav history n = false := hall n (Nat.lt_succ_self n)
    have hrest : ∀ i, i < n → entry_matches nav history i = false :=
      fun i hi => hall i (Nat.lt_succ_of_lt hi)
    cases hg : history.get? n with
    | none =>
      by_cases hz : n = 0
      · simp only [up_scan, hg]
        simp [hz]
      · simp only [up_scan, hg]
        simp [hz, ih hrest h0]
    | some p =>
      have hm := entry_matches_false_of_get? hg hn
      by_cases hz : n = 0
      · simp only [up_scan, hg]
        simp [hm, hz]
      · simp only [up_scan, hg]
        simp [hm, hz, ih hrest h0]

theorem up_scan_get (nav : HistoryNavigator) (history : List Prompt) :
    ∀ (k c : Nat) (p : Prompt),
      up_scan nav history k = some (c, p) → history.get? c = some p := by
  intro k
  induction k with
  | zero =>
    intro c p hs
    cases hg : history.get? 0 with
    | none =>
      simp only [up_scan, hg] at hs
      exact absurd hs (by simp)
    | some q =>
      by_cases hm : nav.is_match history q.prompt = true
      · simp only [up_scan, hg] at hs
        rw [if_pos hm] at hs
        simp only [Option.some.injEq, Prod.mk.injEq] at hs
        obtain ⟨rfl, rfl⟩ := hs
        exact hg
      · simp only [up_scan, hg] at hs
        rw [if_neg hm] at hs
        exact absurd hs (by simp)
  | succ n ih =>
    intro c p hs
    cases hg : history.get? n with
    | none =>
      by_cases hz : n = 0
      · simp only [up_scan, hg] at hs
        rw [if_pos hz] at hs
        exact absurd hs (by simp)
      · simp only [up_scan, hg] at hs
        rw [if_neg hz] at hs
        exact ih c p hs
    | some q =>
      by_cases hm : nav.is_match history q.prompt = true
      · simp only [up_scan, hg] at hs
        rw [if_pos hm] at hs
        simp only [Option.some.injEq, Prod.mk.injEq] at hs
        obtain ⟨rfl, rfl⟩ := hs
        exact hg
      · by_cases hz : n = 0
        · simp only [up_scan, hg] at hs
          rw [if_neg hm, if_pos hz] at hs
          exact absurd hs (by simp)
        · simp only [up_scan, hg] at hs
          rw [if_neg hm, if_neg hz] at hs
          exact ih c p hs

theorem down_scan_aux_eq_none (nav : HistoryNavigator) (history : List Prompt) :
    ∀ (l : List Prompt) (k : Nat),
      (∀ p ∈ l, nav.is_match history p.prompt = false) →
      down_scan_aux nav history l k = none := by
  intro l
  induction l with
  | nil => intro k _; rfl
  | cons q rest ih =>
    intro k hall
    have hq : nav.is_match history q.prompt = false :=
      hall q (List.mem_cons_self q rest)
    rw [down_scan_aux, if_neg (by simp [hq])]
    exact ih (k + 1) fun p hp => hall p (List.mem_cons_of_mem q hp)

theorem down_scan_aux_get (nav : HistoryNavigator) (history : List Prompt) :
    ∀ (l : List Prompt) (k c : Nat) (p : Prompt),
      l = history.drop k → down_scan_aux nav history l k = some (c, p) →
      history.get? c = some p := by
  intro l
  induction l with
  | nil =>
    intro k c p _ hs
    simp [down_scan_aux] at hs
  | cons q rest ih =>
    intro k c p hl hs
    by_cases hm : nav.is_match history q.prompt = true
    · rw [down_scan_aux, if_pos hm] at hs
      simp only [Option.some.injEq, Prod.mk.injEq] at hs
      obtain ⟨rfl, rfl⟩ := hs
      have h0 : (history.drop k).get? 0 = history.get? (k + 0) :=
        get?_drop_eq k history 0
      rw [← hl] at h0
      simpa using h0.symm
    · rw [down_scan_aux, if_neg hm] at hs
      refine ih (k + 1) c p ?_ hs
      have := congrArg List.tail hl
      simpa [List.tail_drop] using this

/-- Claim C4: up returns none and leaves the navigator (cursor and pattern)
unchanged when the history is empty, or when no entry at an index strictly
below the scan start (min of cursor and history length) satisfies the
match-and-skip-current rule; symmetrically, down returns none and is a no-op
when the history is empty or no entry strictly past the scan start (min of
cursor and last index) satisfies the rule. -/
theorem c4_no_match_noop (nav : HistoryNavigator) (history : List Prompt) :
    (history = [] →
       nav.up history = (nav, none) ∧ nav.down history = (nav, none)) ∧
    ((∀ i, i < Nat.min nav.cursor history.length →
        entry_matches nav history i = false) →
       nav.up history = (nav, none)) ∧
    ((∀ i, Nat.min nav.cursor (history.length - 1) < i →
        entry_matches nav history i = false) →
       nav.down history = (nav, none)) := by
  refine ⟨?_, ?_, ?_⟩
  · rintro rfl
    exact ⟨rfl, rfl⟩
  · intro hall
    by_cases hnil : history = []
    · subst hnil; rfl
    · have hie : history.isEmpty = false := by
        simpa [List.isEmpty_eq_false] using hnil
      have h0 : entry_matches nav history 0 = false := by
        by_cases hpos : 0 < Nat.min nav.cursor history.length
        · exact hall 0 hpos
        · have hmin0 : Nat.min nav.cursor history.length = 0 := by omega
          have hlen : history.length ≠ 0 := by
            simpa [List.length_eq_zero] using hnil
          have hcur : nav.cursor = 0 := by
            rcases Nat.min_eq_zero_iff.mp hmin0 with h | h
            · exact h
            · exact absurd h hlen
          obtain ⟨p, hp⟩ : ∃ p, history.get? 0 = some p := by
            cases history with
            | nil => exact absurd rfl hnil
            | cons a t => exact ⟨a, rfl⟩
          have hm : nav.is_match history p.prompt = false := by
            refine is_match_self ?_
            rw [hcur]
            exact hp
          rw [entry_matches, hp]
          exact hm
      have hscan :=
        up_scan_eq_none nav history (Nat.min nav.cursor history.length) hall h0
      rw [HistoryNavigator.up, if_neg (by simp [hie]), hscan]
  · intro hall
    by_cases hnil : history = []
    · subst hnil; rfl
    · have hie : history.isEmpty = false := by
        simpa [List.isEmpty_eq_false] using hnil
      have hmem : ∀ p ∈ history.drop
          (Nat.min nav.cursor (history.length - 1) + 1),
          nav.is_match history p.prompt = false := by
        intro p hp
        obtain ⟨m, hm⟩ := List.mem_iff_get?.mp hp
        rw [get?_drop_eq] at hm
        have hgt : Nat.min nav.cursor (history.length - 1) <
            Nat.min nav.cursor (history.length - 1) + 1 + m := by omega
        exact entry_matches_false_of_get? hm (hall _ hgt)
      have hscan : down_scan nav history
          (Nat.min nav.cursor (history.length - 1)) = none := by
        rw [down_scan]
        exact down_scan_aux_eq_none nav history _ _ hmem
      rw [HistoryNavigator.down, if_neg (by simp [hie]), hscan]

/-- Witness for C4 at concrete inputs: a navigator with cursor 0 over the
one-entry history ["a"] (the hypotheses of both no-match parts hold there,
and both scans yield none), and the empty history for the first part. -/
theorem c4_no_match_noop_witness :
    (({ pattern := "", cursor := 0 } : HistoryNavigator).up [⟨"a", ""⟩] =
        ({ pattern := "", cursor := 0 }, none)) ∧
    (({ pattern := "", cursor := 0 } : HistoryNavigator).down [⟨"a", ""⟩] =
        ({ pattern := "", cursor := 0 }, none)) ∧
    HistoryNavigator.new.up ([] : List Prompt) = (HistoryNavigator.new, none) ∧
    HistoryNavigator.new.down ([] : List Prompt) =
      (HistoryNavigator.new, none) := by
  refine ⟨?_, ?_, ?_, ?_⟩
  · refine (c4_no_match_noop ⟨"", 0⟩ [⟨"a", ""⟩]).2.1 ?_
    intro i hi
    rw [show Nat.min ({ pattern := "", cursor := 0 } :
        HistoryNavigator).cursor ([⟨"a", ""⟩] : List Prompt).length = 0
      from rfl] at hi
    exact absurd hi (Nat.not_lt_zero i)
  · refine (c4_no_match_noop ⟨"", 0⟩ [⟨"a", ""⟩]).2.2 ?_
    intro i hi
    rw [show Nat.min ({ pattern := "", cursor := 0 } :
        HistoryNavigator).cursor (([⟨"a", ""⟩] : List Prompt).length - 1) = 0
      from rfl] at hi
    have hg : ([⟨"a", ""⟩] : List Prompt).get? i = none :=
      List.get?_eq_none.mpr hi
    rw [entry_matches, hg]
  · exact ((c4_no_match_noop HistoryNavigator.new []).1 rfl).1
  · exact ((c4_no_match_noop HistoryNavigator.new []).1 rfl).2

/-- Claim C5: for every non-empty history (of representable length) and
every pattern, down on a freshly reset navigator returns none and leaves the
freshly reset state unchanged: the cursor clamps to the last index and the
forward scan immediately runs past the end. -/
theorem c5_down_fresh_none (nav : HistoryNavigator) (p : String)
    (history : List Prompt) (hne : history ≠ [])
    (hlen : history.length ≤ USIZE_MAX) :
    (nav.reset p).down history = (nav.reset p, none) := by
  have hie : history.isEmpty = false := by
    simpa [List.isEmpty_eq_false] using hne
  have hpos : 0 < history.length := List.length_pos.mpr hne
  have h1 : history.length - 1 ≤ USIZE_MAX := le_trans (Nat.sub_le _ _) hlen
  have hmin : Nat.min (nav.reset p).cursor (history.length - 1) =
      history.length - 1 := by
    show Nat.min USIZE_MAX (history.length - 1) = history.length - 1
    exact Nat.min_eq_right h1
  have hscan : down_scan (nav.reset p) history (history.length - 1) = none := by
    rw [down_scan, show history.length - 1 + 1 = history.length by omega,
      List.drop_length]
    rfl
  rw [HistoryNavigator.down, if_neg (by simp [hie]), hmin, hscan]

/-- Witness for C5: the fresh navigator with any pattern over the one-entry
history ["a"]. -/
theorem c5_down_fresh_none_witness :
    (HistoryNavigator.new.reset "").down [⟨"a", ""⟩] =
      (HistoryNavigator.new.reset "", none) :=
  c5_down_fresh_none HistoryNavigator.new "" [⟨"a", ""⟩] (by decide) (by decide)

/-- Claim C6: whenever up or down returns some s, the updated cursor is a
valid index into the history and the prompt of the entry at that cursor is
exactly s — the cursor tracks the entry last surfaced to the caller. -/
theorem c6_cursor_tracks_result (nav : HistoryNavigator)
    (history : List Prompt) (nav2 : HistoryNavigator) (s : String) :
    (nav.up history = (nav2, some s) →
       nav2.cursor < history.length ∧
       ∃ p, history.get? nav2.cursor = some p ∧ p.prompt = s) ∧
    (nav.down history = (nav2, some s) →
       nav2.cursor < history.length ∧
       ∃ p, history.get? nav2.cursor = some p ∧ p.prompt = s) := by
  constructor
  · intro hup
    rw [HistoryNavigator.up] at hup
    by_cases hie : history.isEmpty = true
    · rw [if_pos hie] at hup
      have : (none : Option String) = some s := congrArg Prod.snd hup
      exact absurd this (by simp)
    · rw [if_neg hie] at hup
      cases hscan : up_scan nav history (Nat.min nav.cursor history.length) with
      | none =>
        rw [hscan] at hup
        have : (none : Option String) = some s := congrArg Prod.snd hup
        exact absurd this (by simp)
      | some cp =>
        obtain ⟨c, p⟩ := cp
        rw [hscan] at hup
        have hnav : nav2 = { nav with cursor := c } :=
          (congrArg Prod.fst hup).symm
        have hsnd : some p.prompt = some s := congrArg Prod.snd hup
        have hps : p.prompt = s := Option.some.inj hsnd
        have hget := up_scan_get nav history _ c p hscan
        refine ⟨?_, p, ?_, hps⟩
        · rw [hnav]
          exact get?_some_lt hget
        · rw [hnav]
          exact hget
  · intro hdown
    rw [HistoryNavigator.down] at hdown
    by_cases hie : history.isEmpty = true
    · rw [if_pos hie] at hdown
      have : (none : Option String) = some s := congrArg Prod.snd hdown
      exact absurd this (by simp)
    · rw [if_neg hie] at hdown
      cases hscan : down_scan nav history
          (Nat.min nav.cursor (history.length - 1)) with
      | none =>
        rw [hscan] at hdown
        have : (none : Option String) = some s := congrArg Prod.snd hdown
        exact absurd this (by simp)
      | some cp =>
        obtain ⟨c, p⟩ := cp
        rw [hscan] at hdown
        have hnav : nav2 = { nav with cursor := c } :=
          (congrArg Prod.fst hdown).symm
        have hsnd : some p.prompt = some s := congrArg Prod.snd hdown
        have hps : p.prompt = s := Option.some.inj hsnd
        rw [down_scan] at hscan
        have hget := down_scan_aux_get nav history _ _ c p rfl hscan
        refine ⟨?_, p, ?_, hps⟩
        · rw [hnav]
          exact get?_some_lt hget
        · rw [hnav]
          exact hget

/-- Witness for C6 at concrete inputs: an up call that returns
some "help me" with cursor 1, and a down call that returns some "b" with
cursor 1. -/
theorem c6_cursor_tracks_result_witness :
    (({ pattern := "he", cursor := 1 } : HistoryNavigator).cursor <
        ([⟨"hello world", ""⟩, ⟨"help me", ""⟩, ⟨"hi", ""⟩] :
          List Prompt).length ∧
      ∃ p, ([⟨"hello world", ""⟩, ⟨"help me", ""⟩, ⟨"hi", ""⟩] :
            List Prompt).get?
          ({ pattern := "he", cursor := 1 } : HistoryNavigator).cursor =
            some p ∧
        p.prompt = "help me") ∧
    (({ pattern := "", cursor := 1 } : HistoryNavigator).cursor <
        ([⟨"a", ""⟩, ⟨"b", ""⟩] : List Prompt).length ∧
      ∃ p, ([⟨"a", ""⟩, ⟨"b", ""⟩] : List Prompt).get?
          ({ pattern := "", cursor := 1 } : HistoryNavigator).cursor =
            some p ∧
        p.prompt = "b") :=
  ⟨(c6_cursor_tracks_result (HistoryNavigator.new.reset "he")
      [⟨"hello world", ""⟩, ⟨"help me", ""⟩, ⟨"hi", ""⟩]
      { pattern := "he", cursor := 1 } "help me").1 (by decide),
   (c6_cursor_tracks_result ⟨"", 0⟩ [⟨"a", ""⟩, ⟨"b", ""⟩]
      ⟨"", 1⟩ "b").2 (by decide)⟩

theorem drain_loop_eq_nil : ∀ (l : List Message), drain_loop l = [] := by
  intro l
  induction l with
  | nil => rfl
  | cons m rest ih => rw [drain_loop]; exact ih

theorem push_to_last_reply_eq {h : List Prompt} {p : Prompt} (s : String)
    (hp : h.getLast? = some p) :
    push_to_last_reply h s = h.dropLast ++ [{ p with reply := p.reply ++ s }] := by
  rw [push_to_last_reply, hp]

theorem pump_message_token_eq (app : App) (pid : PromptId) (s : String)
    (rest : List Message)
    (hq : app.generator.queue = Message.Token pid s :: rest) :
    app.pump_message =
      if app.last_prompt_id = pid then
        { app with
            generator := { app.generator with queue := rest },
            history := push_to_last_reply app.history s }
      else { app with generator := { app.generator with queue := rest } } := by
  have hnext : app.generator.next_message =
      ({ app.generator with queue := rest }, some (Message.Token pid s)) := by
    rw [Generator.next_message, hq]
  simp only [App.pump_message, hnext]

/-- Claim C8: send_prompt with a prompt that trims to empty submits nothing
and pushes no conversation entry — only the input field is cleared (and the
matcher reset with the now-empty field); with a non-empty trimmed prompt the
delivery queue is drained to empty, exactly one entry (trimmed prompt, empty
reply) is pushed, and last_prompt_id becomes the id send_prompt returned. -/
theorem c8_send_prompt_spec (app : App) :
    (rust_trim app.prompt = "" →
       app.send_prompt =
         { app with
             prompt := "",
             matcher := { pattern := "", cursor := USIZE_MAX } }) ∧
    (rust_trim app.prompt ≠ "" →
       app.send_prompt =
         { app with
             prompt := "",
             matcher := { pattern := "", cursor := USIZE_MAX },
             generator := { app.generator with
                 queue := [], next_id := app.generator.next_id + 1 },
             last_prompt_id := app.generator.next_id,
             history := app.history ++
               [{ prompt := rust_trim app.prompt, reply := "" }] }) := by
  constructor
  · intro he
    simp only [App.send_prompt]
    rw [if_pos he]
    rfl
  · intro he
    simp only [App.send_prompt]
    rw [if_neg he]
    simp only [drain_messages, Generator.send_prompt, drain_loop_eq_nil]
    rfl

/-- Witness for C8 at concrete inputs: a whitespace-only prompt is a no-op
apart from clearing the field, and the prompt " hi " is trimmed, pushed and
submitted after the queue drains. -/
theorem c8_send_prompt_spec_witness :
    (App.mk "  " 0 [] (Generator.mk [] 1 false) none
        HistoryNavigator.new).send_prompt =
      { App.mk "  " 0 [] (Generator.mk [] 1 false) none
          HistoryNavigator.new with
          prompt := "",
          matcher := { pattern := "", cursor := USIZE_MAX } } ∧
    (App.mk " hi " 0 [⟨"q", "r"⟩] (Generator.mk [Message.Token 0 "x"] 5 false)
        none HistoryNavigator.new).send_prompt =
      { App.mk " hi " 0 [⟨"q", "r"⟩]
          (Generator.mk [Message.Token 0 "x"] 5 false) none
          HistoryNavigator.new with
          prompt := "",
          matcher := { pattern := "", cursor := USIZE_MAX },
          generator := Generator.mk [] 6 false,
          last_prompt_id := 5,
          history := [⟨"q", "r"⟩] ++
            [{ prompt := rust_trim " hi ", reply := "" }] } :=
  ⟨(c8_send_prompt_spec (App.mk "  " 0 [] (Generator.mk [] 1 false) none
      HistoryNavigator.new)).1 (by decide),
   (c8_send_prompt_spec (App.mk " hi " 0 [⟨"q", "r"⟩]
      (Generator.mk [Message.Token 0 "x"] 5 false) none
      HistoryNavigator.new)).2 (by decide)⟩

/-- Claim C9: when one message is drained in App::update and it is a Token,
an id different from last_prompt_id leaves the conversation history (and all
fields but the popped queue) unchanged; an id equal to last_prompt_id
changes only the last history entry, appending the fragment text to its
reply, leaving its prompt, every other entry, and every other field
untouched. -/
theorem c9_pump_token_frame (app : App) (pid : PromptId) (s : String)
    (rest : List Message)
    (hq : app.generator.queue = Message.Token pid s :: rest) :
    (pid ≠ app.last_prompt_id →
       app.pump_message =
         { app with generator := { app.generator with queue := rest } }) ∧
    (pid = app.last_prompt_id →
       ∀ p, app.history.getLast? = some p →
         app.pump_message =
           { app with
               generator := { app.generator with queue := rest },
               history := app.history.dropLast ++
                 [{ p with reply := p.reply ++ s }] }) := by
  have hpump := pump_message_token_eq app pid s rest hq
  constructor
  · intro hne
    rw [hpump, if_neg (fun hh => hne hh.symm)]
  · intro he p hp
    rw [hpump, if_pos he.symm, push_to_last_reply_eq s hp]

/-- Witness for C9 at concrete inputs: a stale Token (id 2 against
last_prompt_id 1) is dropped, and a current Token (id 2 against
last_prompt_id 2) appends "x" to the reply of the last entry. -/
theorem c9_pump_token_frame_witness :
    (App.mk "" 1 [⟨"q", "r"⟩] (Generator.mk [Message.Token 2 "x"] 3 false)
        none HistoryNavigator.new).pump_message =
      { App.mk "" 1 [⟨"q", "r"⟩] (Generator.mk [Message.Token 2 "x"] 3 false)
          none HistoryNavigator.new with
          generator := Generator.mk [] 3 false } ∧
    (App.mk "" 2 [⟨"q", "r"⟩] (Generator.mk [Message.Token 2 "x"] 3 false)
        none HistoryNavigator.new).pump_message =
      { App.mk "" 2 [⟨"q", "r"⟩] (Generator.mk [Message.Token 2 "x"] 3 false)
          none HistoryNavigator.new with
          generator := Generator.mk [] 3 false,
          history := ([⟨"q", "r"⟩] : List Prompt).dropLast ++
            [{ (⟨"q", "r"⟩ : Prompt) with reply := "r" ++ "x" }] } :=
  ⟨(c9_pump_token_frame (App.mk "" 1 [⟨"q", "r"⟩]
      (Generator.mk [Message.Token 2 "x"] 3 false) none HistoryNavigator.new)
      2 "x" [] rfl).1 (by decide),
   (c9_pump_token_frame (App.mk "" 2 [⟨"q", "r"⟩]
      (Generator.mk [Message.Token 2 "x"] 3 false) none HistoryNavigator.new)
      2 "x" [] rfl).2 rfl ⟨"q", "r"⟩ rfl⟩

/-- Claim C10: the Escape branch of App::process_input stops the generator,
clears the prompt field and resets the navigator, but does not touch
last_prompt_id, the queue, or the history; consequently a Token still queued
for the stopped prompt carries an id equal to last_prompt_id and is still
appended to the reply of the last conversation entry when drained. -/
theorem c10_escape_keeps_last_id (app : App) :
    (app.on_escape).last_prompt_id = app.last_prompt_id ∧
    (app.on_escape).generator.queue = app.generator.queue ∧
    (app.on_escape).history = app.history ∧
    (app.on_escape).prompt = "" ∧
    (app.on_escape).matcher = { pattern := "", cursor := USIZE_MAX } ∧
    (∀ (s : String) (rest : List Message) (p : Prompt),
       app.generator.queue = Message.Token app.last_prompt_id s :: rest →
       app.history.getLast? = some p →
       (app.on_escape).pump_message =
         { app.on_escape with
             generator := { (app.on_escape).generator with queue := rest },
             history := app.history.dropLast ++
               [{ p with reply := p.reply ++ s }] }) := by
  refine ⟨rfl, rfl, rfl, rfl, rfl, ?_⟩
  intro s rest p hq hp
  have hq2 : (app.on_escape).generator.queue =
      Message.Token app.last_prompt_id s :: rest := hq
  have hpump := pump_message_token_eq app.on_escape app.last_prompt_id s rest hq2
  rw [hpump,
    if_pos (show app.on_escape.last_prompt_id = app.last_prompt_id from rfl),
    push_to_last_reply_eq s (show (app.on_escape).history.getLast? = some p
      from hp)]
  rfl

/-- Witness for C10 at a concrete input: after Escape, a queued Token with
the old last_prompt_id (2) is still appended to the last reply. -/
theorem c10_escape_keeps_last_id_witness :
    ((App.mk "typing" 2 [⟨"q", "r"⟩]
        (Generator.mk [Message.Token 2 "x"] 3 false) none
        HistoryNavigator.new).on_escape).pump_message =
      { (App.mk "typing" 2 [⟨"q", "r"⟩]
          (Generator.mk [Message.Token 2 "x"] 3 false) none
          HistoryNavigator.new).on_escape with
          generator := { ((App.mk "typing" 2 [⟨"q", "r"⟩]
              (Generator.mk [Message.Token 2 "x"] 3 false) none
              HistoryNavigator.new).on_escape).generator with
              queue := ([] : List Message) },
          history := ([⟨"q", "r"⟩] : List Prompt).dropLast ++
            [{ (⟨"q", "r"⟩ : Prompt) with reply := "r" ++ "x" }] } :=
  (c10_escape_keeps_last_id (App.mk "typing" 2 [⟨"q", "r"⟩]
      (Generator.mk [Message.Token 2 "x"] 3 false) none
      HistoryNavigator.new)).2.2.2.2.2 "x" [] ⟨"q", "r"⟩ rfl rfl
